import Mathlib

/-!
Shallow embedding of the pidgin-chime client core:

* `src/chat.c` — per-room chat session: message delivery with dedup of
  self-sent echoes (`chat_deliver_msg`, `sent_msg_cb`), buffering of live
  push events while the backfill is in progress (`chat_msg_jugg_cb`), and
  the mention expansion / contraction transforms
  (`parse_outbound_mentions`, `parse_inbound_mentions`).
* `src/chime-conversation.c` — conversation entity parsing and upsert
  (`chime_connection_parse_conversation`) and the paginated sync
  controller (`fetch_conversations`, `conversations_cb`).

JSON nodes are embedded as records of `Option`-valued fields: a field holds
`some v` exactly when the corresponding `parse_*` call on the C side
succeeds and yields `v`.  Code of the repository that is not under `src/`
(the backfill drain `chime_complete_messages` and the expiry sweep
`chime_object_collection_expire_outdated`) is modelled from the spec; the
doc comments of those definitions say so explicitly.
-/

/-- A GTimeVal as filled in by `g_time_val_from_iso8601` / `parse_time`:
seconds and microseconds. -/
structure TimeVal where
  sec : Int
  usec : Int
deriving DecidableEq

/-- A chat message JSON record as consumed by `src/chat.c`.  Each field is the
result of the corresponding `parse_string` / `parse_time` call on the node
(`none` = member missing or malformed). -/
structure MsgRecord where
  messageId : Option String
  content : Option String
  sender : Option String
  createdOn : Option (String × TimeVal)
deriving DecidableEq

/-- Message direction flag computed by `parse_incoming_msg`:
`PURPLE_MESSAGE_SEND` when the sender is the local profile id,
`PURPLE_MESSAGE_RECV` otherwise. -/
inductive MsgDir
  | send
  | recv
deriving DecidableEq

/-- Embedding of `parse_incoming_msg` (src/chat.c:110): the message reaches the
purple conversation iff both `Content` and `Sender` parse; the direction flag
is `send` iff the sender equals the local profile id.  Returns `none` when
nothing is shown. -/
def parse_incoming_msg (profileId : String) (r : MsgRecord) : Option MsgDir :=
  match r.content, r.sender with
  | some _, some s => some (if s = profileId then MsgDir.send else MsgDir.recv)
  | _, _ => none

/-- Set insertion matching `g_hash_table_add` on a string-keyed set. -/
def setAdd (id : String) (s : List String) : List String :=
  if id ∈ s then s else id :: s

/-- Embedding of `chat_deliver_msg` (src/chat.c:147): if the record's
`MessageId` parses and is present in the `sent_msgs` set, remove it from the
set and suppress delivery; otherwise fall through to `parse_incoming_msg`.
Returns the new `sent_msgs` set and the delivery result. -/
def chat_deliver_msg (profileId : String) (sent : List String) (r : MsgRecord) :
    List String × Option MsgDir :=
  match r.messageId with
  | some id =>
      if id ∈ sent then (sent.erase id, none)
      else (sent, parse_incoming_msg profileId r)
  | none => (sent, parse_incoming_msg profileId r)

/-- Outcome of `sent_msg_cb`: the error path, the "last seen is at least as
new" suppression path, or the fall-through to `parse_incoming_msg`. -/
inductive SentRes
  | sendError
  | seenSuppressed
  | passedOn (d : Option MsgDir)
deriving DecidableEq

/-- Helper for the tail of `sent_msg_cb` (src/chat.c:427): record the message
id in `sent_msgs` (when it parses) and deliver via `parse_incoming_msg`. -/
def sentDeliver (profileId : String) (m : MsgRecord) (sent : List String) :
    List String × SentRes :=
  match m.messageId with
  | some id => (setAdd id sent, SentRes.passedOn (parse_incoming_msg profileId m))
  | none => (sent, SentRes.passedOn (parse_incoming_msg profileId m))

/-- Embedding of `sent_msg_cb` (src/chat.c:400).  `res` is the result of
`chime_connection_send_message_finish` (`none` = error).  `nowSec` and
`uninitUsec` model the fallback `tv` when `CreatedOn` fails to parse
(`tv.tv_sec = time(NULL)`, `tv_usec` left as it was).  `lastSeen` is the
parsed "last seen" timestamp, present exactly when `chime_read_last_msg`
succeeds and the stored string parses as ISO8601. -/
def sent_msg_cb (profileId : String) (nowSec uninitUsec : Int)
    (lastSeen : Option TimeVal) (res : Option MsgRecord) (sent : List String) :
    List String × SentRes :=
  match res with
  | none => (sent, SentRes.sendError)
  | some m =>
    let tv : TimeVal :=
      match m.createdOn with
      | some p => p.2
      | none => ⟨nowSec, uninitUsec⟩
    match lastSeen with
    | some seen =>
      if seen.sec > tv.sec ∨ (seen.sec = tv.sec ∧ seen.usec ≥ tv.usec) then
        (sent, SentRes.seenSuppressed)
      else
        sentDeliver profileId m sent
    | none => sentDeliver profileId m sent

/-- Number of purple deliveries arising from a `sent_msg_cb` outcome. -/
def sentDeliveryCount : SentRes → Nat
  | SentRes.passedOn (some _) => 1
  | _ => 0

/-- Number of purple deliveries arising from a `chat_deliver_msg` result. -/
def echoDeliveryCount : Option MsgDir → Nat
  | some _ => 1
  | none => 0

/-- Scenario for the self-sent echo dedup: a local send completes
(`sent_msg_cb` on record `m`), and afterwards the live channel echoes the very
same record, which reaches `chat_deliver_msg`.  Returns the total number of
deliveries of the message to the session. -/
def sendThenEcho (profileId : String) (nowSec uninitUsec : Int)
    (lastSeen : Option TimeVal) (m : MsgRecord) (sent : List String) : Nat :=
  let r1 := sent_msg_cb profileId nowSec uninitUsec lastSeen (some m) sent
  let r2 := chat_deliver_msg profileId r1.1 m
  sentDeliveryCount r1.2 + echoDeliveryCount r2.2

/-- Lookup in a string-keyed association list (first match wins), matching
`g_hash_table_lookup`. -/
def assocLookup {β : Type} (id : String) : List (String × β) → Option β
  | [] => none
  | p :: rest => if p.1 = id then some p.2 else assocLookup id rest

/-- Insertion into a string-keyed association list, replacing any entry with
the same key, matching `g_hash_table_insert`. -/
def assocInsert {β : Type} (id : String) (v : β) (l : List (String × β)) :
    List (String × β) :=
  (id, v) :: l.filter (fun p => decide (p.1 ≠ id))

/-- Keys of an association list. -/
def assocKeys {β : Type} (l : List (String × β)) : List String :=
  l.map Prod.fst

/-- The message-stream part of `struct chime_chat` (the embedded
`struct chime_msgs`): `messages` is the id-keyed buffer of live events, which
exists exactly while the backfill is still gathering messages; `lastMsg` is
the (time, id) pair recorded by `chime_update_last_msg`. -/
structure ChimeMsgs where
  messages : Option (List (String × MsgRecord))
  lastMsg : Option (String × String)
deriving DecidableEq

/-- The chat state relevant to message reconciliation in
`struct chime_chat` (src/chat.c:33). -/
structure ChatSt where
  msgs : ChimeMsgs
  sentMsgs : List String
deriving DecidableEq

/-- Embedding of `chat_msg_jugg_cb` (src/chat.c:204).  `recordOpt` is the
`record` member of the event node (`none` = missing).  While the backfill
buffer exists the record is inserted into it (overwriting on duplicate id) and
nothing is delivered; otherwise the record needs a parsable `CreatedOn`, the
last-seen marker is updated, and the record goes through `chat_deliver_msg`.
Returns (new state, handled, delivery). -/
def chat_msg_jugg_cb (profileId : String) (chat : ChatSt)
    (recordOpt : Option MsgRecord) : ChatSt × Bool × Option MsgDir :=
  match recordOpt with
  | none => (chat, false, none)
  | some r =>
    match r.messageId with
    | none => (chat, false, none)
    | some id =>
      match chat.msgs.messages with
      | some buf =>
          ({ chat with msgs := { chat.msgs with messages := some (assocInsert id r buf) } },
           true, none)
      | none =>
        match r.createdOn with
        | none => (chat, false, none)
        | some p =>
          let chat1 := { chat with msgs := { chat.msgs with lastMsg := some (p.1, id) } }
          let d := chat_deliver_msg profileId chat1.sentMsgs r
          ({ chat1 with sentMsgs := d.1 }, true, d.2)

/-- Sort key of a buffered record: its parsed `CreatedOn` timestamp. -/
def bufKey (p : String × MsgRecord) : TimeVal :=
  match p.2.createdOn with
  | some q => q.2
  | none => ⟨0, 0⟩

/-- Timestamp order on buffered records (seconds, then microseconds). -/
def bufLe (p q : String × MsgRecord) : Prop :=
  (bufKey p).sec < (bufKey q).sec ∨
    ((bufKey p).sec = (bufKey q).sec ∧ (bufKey p).usec ≤ (bufKey q).usec)

instance : DecidableRel bufLe := fun p q => by
  unfold bufLe
  exact inferInstance

/-- Deliver a list of buffered records in order through `chat_deliver_msg`,
threading the `sent_msgs` set.  Returns the final set and the ids of the
records that were actually delivered. -/
def drainFold (profileId : String) :
    List (String × MsgRecord) → List String → List String × List String
  | [], sent => (sent, [])
  | p :: rest, sent =>
    let d := chat_deliver_msg profileId sent p.2
    let t := drainFold profileId rest d.1
    (t.1, (match d.2 with | some _ => [p.1] | none => []) ++ t.2)

/-- Modelled from the spec: `chime_complete_messages` (chime-msgs.c) is code of
this repository that is not under src/.  Spec §4.4: on backfill completion,
"drain the buffered mapping in timestamp order, deliver each to the Chat
Session, then deliver all subsequent live events immediately without
buffering".  Each buffered record is delivered through the `chime_msgs.cb`
hook, which src/chat.c:366 sets to `chat_deliver_msg`; afterwards the buffer
is gone (`messages = none`, i.e. Live mode). -/
def chime_complete_messages (profileId : String) (chat : ChatSt) :
    ChatSt × List String :=
  match chat.msgs.messages with
  | none => (chat, [])
  | some buf =>
    let sorted := List.insertionSort bufLe buf
    let t := drainFold profileId sorted chat.sentMsgs
    ({ chat with msgs := { chat.msgs with messages := none }, sentMsgs := t.1 }, t.2)

/-- The `NotificationPreferences` sub-node of a Conversation record: each field
is the result of the corresponding `parse_notify_pref` call (that helper lives
outside src/, so the already-parsed preference value is embedded as a `Nat`). -/
structure NotifNode where
  desktop : Option Nat
  mobile : Option Nat
deriving DecidableEq

/-- The `Preferences` sub-node of a Conversation record. -/
structure PrefsOuter where
  notificationPreferences : Option NotifNode
deriving DecidableEq

/-- A Conversation JSON record as consumed by
`chime_connection_parse_conversation` (src/chime-conversation.c:293).  String
fields are `parse_string` results; `favorite` is the raw `parse_int` result
(fed to `parse_boolean`); `visibility` is the `parse_visibility` result (that
helper lives outside src/, so the parsed boolean is embedded directly). -/
structure ConvNode where
  conversationId : Option String
  name : Option String
  channel : Option String
  favorite : Option Int
  visibility : Option Bool
  createdOn : Option String
  updatedOn : Option String
  lastSent : Option String
  preferences : Option PrefsOuter
deriving DecidableEq

/-- Embedding of `parse_boolean` (src/chime-conversation.c:282): parse the
member as an integer and coerce with `!!intval`. -/
def parse_boolean (i : Option Int) : Option Bool :=
  i.map (fun v => decide (v ≠ 0))

/-- The mutable fields of a `ChimeConversation` entity
(src/chime-conversation.c:43), plus the `generation` counter its `ChimeObject`
parent carries for staleness detection. -/
structure Conversation where
  name : String
  channel : String
  favourite : Bool
  visibility : Bool
  lastSent : Option String
  createdOn : String
  updatedOn : String
  desktop : Nat
  mobile : Nat
  generation : Nat
deriving DecidableEq

/-- The validated content of a Conversation record, produced only when every
required field parses. -/
structure ConvRecord where
  id : String
  name : String
  channel : String
  favourite : Bool
  visibility : Bool
  lastSent : Option String
  createdOn : String
  updatedOn : String
  desktop : Nat
  mobile : Nat
deriving DecidableEq

/-- The validation phase of `chime_connection_parse_conversation`
(src/chime-conversation.c:302-326): every required field — including the
nested `Preferences.NotificationPreferences` pair — must parse, or the whole
record is rejected; `LastSent` alone is optional. -/
def parse_conversation_node (node : ConvNode) : Option ConvRecord :=
  match node.conversationId, node.name, node.channel, parse_boolean node.favorite,
        node.visibility, node.createdOn, node.updatedOn with
  | some id, some nm, some ch, some fav, some vis, some cr, some up =>
    match node.preferences with
    | none => none
    | some prefs =>
      match prefs.notificationPreferences with
      | none => none
      | some np =>
        match np.desktop, np.mobile with
        | some d, some mo =>
          some ⟨id, nm, ch, fav, vis, node.lastSent, cr, up, d, mo⟩
        | _, _ => none
  | _, _, _, _, _, _, _ => none

/-- Which field-change notifications (`g_object_notify`) an update emitted. -/
structure Notified where
  name : Bool
  channel : Bool
  favourite : Bool
  visibility : Bool
  lastSent : Bool
  createdOn : Bool
  updatedOn : Bool
  desktop : Bool
  mobile : Bool
deriving DecidableEq

/-- No notification emitted on any field. -/
def noNotes : Notified :=
  ⟨false, false, false, false, false, false, false, false, false⟩

/-- The update phase of `chime_connection_parse_conversation`
(src/chime-conversation.c:352-391) on an existing entity: each mutable field
is assigned (and its notification emitted) exactly when the parsed value
differs — for `LastSent`, additionally only when the parsed value is present.
The entity's generation is untouched here; re-stamping happens in
`chime_object_collection_hash_object`. -/
def updateConversation (c : Conversation) (r : ConvRecord) :
    Conversation × Notified :=
  let fName := decide (r.name ≠ c.name)
  let fChan := decide (r.channel ≠ c.channel)
  let fFav := decide (r.favourite ≠ c.favourite)
  let fVis := decide (r.visibility ≠ c.visibility)
  let fLast := match r.lastSent with
    | some s => decide (some s ≠ c.lastSent)
    | none => false
  let fCr := decide (r.createdOn ≠ c.createdOn)
  let fUp := decide (r.updatedOn ≠ c.updatedOn)
  let fDesk := decide (r.desktop ≠ c.desktop)
  let fMob := decide (r.mobile ≠ c.mobile)
  ({ c with
     name := if fName then r.name else c.name
     channel := if fChan then r.channel else c.channel
     favourite := if fFav then r.favourite else c.favourite
     visibility := if fVis then r.visibility else c.visibility
     lastSent := if fLast then r.lastSent else c.lastSent
     createdOn := if fCr then r.createdOn else c.createdOn
     updatedOn := if fUp then r.updatedOn else c.updatedOn
     desktop := if fDesk then r.desktop else c.desktop
     mobile := if fMob then r.mobile else c.mobile },
   ⟨fName, fChan, fFav, fVis, fLast, fCr, fUp, fDesk, fMob⟩)

/-- An entity collection (`struct chime_object_collection`): the generation
counter and the by-id index.  The by-name index plays no part in the verified
claims and is omitted. -/
structure ObjCollection where
  generation : Nat
  byId : List (String × Conversation)
deriving DecidableEq

/-- Modelled from the spec: `chime_object_collection_hash_object`
(chime-object.c) is code of this repository that is not under src/.  Spec
§4.1: on upsert the entity is inserted into the collection's indices and its
generation is always refreshed to the collection's current value ("mark
generation = collection.generation ... always refresh generation to current
value regardless of field deltas"). -/
def chime_object_collection_hash_object (coll : ObjCollection) (id : String)
    (c : Conversation) : ObjCollection :=
  { coll with byId := assocInsert id { c with generation := coll.generation } coll.byId }

/-- Result of `chime_connection_parse_conversation`: the updated collection,
the id of the returned entity (`none` = parse error, `NULL` return with the
`ParseError` set), whether the "new conversation" signal fired, and the
field-change notifications emitted. -/
structure ParseConvResult where
  coll : ObjCollection
  ok : Option String
  isNew : Bool
  notified : Notified
deriving DecidableEq

/-- Embedding of `chime_connection_parse_conversation`
(src/chime-conversation.c:293): validate every required field, then either
construct-and-insert a new entity (emitting the new-conversation signal) or
merge changed fields into the existing entity, emitting per-field
notifications; in both cases the entity is re-hashed into the collection with
the current generation. -/
def chime_connection_parse_conversation (coll : ObjCollection) (node : ConvNode) :
    ParseConvResult :=
  match parse_conversation_node node with
  | none => ⟨coll, none, false, noNotes⟩
  | some r =>
    match assocLookup r.id coll.byId with
    | none =>
      let c : Conversation :=
        ⟨r.name, r.channel, r.favourite, r.visibility, r.lastSent,
         r.createdOn, r.updatedOn, r.desktop, r.mobile, 0⟩
      ⟨chime_object_collection_hash_object coll r.id c, some r.id, true, noNotes⟩
    | some c =>
      let u := updateConversation c r
      ⟨chime_object_collection_hash_object coll r.id u.1, some r.id, false, u.2⟩

/-- Modelled from the spec: `chime_object_collection_expire_outdated`
(chime-object.c) is code of this repository that is not under src/.  Spec
§4.1/§8: the sweep "removes exactly the entities whose generation is strictly
less than the collection's generation at sweep time". -/
def chime_object_collection_expire_outdated (coll : ObjCollection) : ObjCollection :=
  { coll with byId := coll.byId.filter (fun p => decide (coll.generation ≤ p.2.generation)) }

/-- The per-collection sync state (`CHIME_SYNC_*`). -/
inductive SyncState
  | idle
  | fetching
  | stale
deriving DecidableEq

/-- The connection state driving the conversations sync controller:
`conversations_sync`, the conversations collection and the `convs_online`
flag. -/
structure ConnSt where
  sync : SyncState
  conversations : ObjCollection
  convsOnline : Bool
deriving DecidableEq

/-- The JSON body of one page of the `/conversations` fetch. -/
structure BodyNode where
  conversations : Option (List ConvNode)
  nextToken : Option String
deriving DecidableEq

/-- One HTTP page response: whether `SOUP_STATUS_IS_SUCCESSFUL` held, and the
parsed body node (`none` = no JSON body). -/
structure PageResp where
  statusOk : Bool
  body : Option BodyNode
deriving DecidableEq

/-- Embedding of `fetch_conversations` (src/chime-conversation.c:453).  With a
continuation token the request is issued unconditionally; without one the sync
state gates it: `FETCHING` coalesces to `STALE` (falling through to return
without a request), `STALE` absorbs the request, and only `IDLE` bumps the
generation, moves to `FETCHING` and issues the first page request.  Returns
the new state and whether an HTTP request was issued. -/
def fetch_conversations (tok : Option String) (st : ConnSt) : ConnSt × Bool :=
  match tok with
  | some _ => (st, true)
  | none =>
    match st.sync with
    | SyncState.fetching => ({ st with sync := SyncState.stale }, false)
    | SyncState.stale => (st, false)
    | SyncState.idle =>
      ({ st with
         sync := SyncState.fetching,
         conversations := { st.conversations with
                            generation := st.conversations.generation + 1 } }, true)

/-- Result of one `conversations_cb` invocation: the new connection state,
whether the expiry sweep ran, whether a further HTTP request was issued, and
whether `chime_connection_fail` was called. -/
structure CbResult where
  st : ConnSt
  sweepRan : Bool
  requestIssued : Bool
  failed : Bool
deriving DecidableEq

/-- Embedding of `conversations_cb` (src/chime-conversation.c:400).  A page
landing while the state is no longer `FETCHING` (it was invalidated to
`STALE` in transit) resets to `IDLE` and refetches from scratch.  Otherwise a
successful page with a body has its records upserted; a continuation token
requests the next page, and the final page returns to `IDLE`, runs the expiry
sweep and marks conversations online.  A missing `Conversations` node or an
unsuccessful/bodyless response reports failure via `chime_connection_fail`
and leaves the state untouched. -/
def conversations_cb (st : ConnSt) (pg : PageResp) : CbResult :=
  match st.sync with
  | SyncState.fetching =>
    match pg.statusOk, pg.body with
    | true, some body =>
      (match body.conversations with
       | none => ⟨st, false, false, true⟩
       | some recs =>
         let coll := recs.foldl
           (fun c n => (chime_connection_parse_conversation c n).coll)
           st.conversations
         match body.nextToken with
         | some _ => ⟨{ st with conversations := coll }, false, true, false⟩
         | none =>
           ⟨{ st with
              sync := SyncState.idle,
              conversations := chime_object_collection_expire_outdated coll,
              convsOnline := true }, true, false, false⟩)
    | _, _ => ⟨st, false, false, true⟩
  | _ =>
    let st1 := { st with sync := SyncState.idle }
    let r := fetch_conversations none st1
    ⟨r.1, false, r.2, false⟩

/-- Does `needle` occur at the head of the second list? -/
def leadMatch : List Char → List Char → Bool
  | [], _ => true
  | _ :: _, [] => false
  | a :: as, b :: bs => decide (a = b) && leadMatch as bs

/-- Embedding of `strstr`-as-a-test: does `needle` occur anywhere in `hay`? -/
def containsSub : List Char → List Char → Bool
  | [], needle => leadMatch needle []
  | c :: t, needle => leadMatch needle (c :: t) || containsSub t needle

/-- Fuel-indexed body of `replace` (src/chat.c:78), which splits `dst` on every
occurrence of `a` and joins with `b` — i.e. left-to-right non-overlapping
replacement of all occurrences.  Every step consumes at least one character of
the input (the needles used are never empty), so fuel equal to the input
length never runs out. -/
def replAuxFuel (needle repl : List Char) : Nat → List Char → List Char
  | _, [] => []
  | 0, l => l
  | fuel + 1, c :: rest =>
    if leadMatch needle (c :: rest) then
      repl ++ replAuxFuel needle repl fuel (List.drop (needle.length - 1) rest)
    else
      c :: replAuxFuel needle repl fuel rest

/-- Embedding of `replace` (src/chat.c:78): replace every occurrence of `a` in
`dst` by `b`. -/
def replaceSub (dst a b : List Char) : List Char :=
  replAuxFuel a b dst.length dst

/-- Embedding of `parse_outbound_mentions` (src/chat.c:101): expand the
special `@all` / `@present` shorthands, then every member display name, into
the Chime wire mention format `<@id|display name>` (`expand_member_cb`,
src/chat.c:87).  `members` carries (profile id, display name) pairs. -/
def parse_outbound_mentions (members : List (String × String)) (message : List Char) :
    List Char :=
  let parsed := replaceSub message "@all".data "<@all|All Members>".data
  let parsed := replaceSub parsed "@present".data "<@present|Present Members>".data
  members.foldl
    (fun dst m =>
      replaceSub dst m.2.data ("<@".data ++ m.1.data ++ "|".data ++ m.2.data ++ ">".data))
    parsed

/-- Characters matched by the `[\w\-]` class of MENTION_PATTERN
(src/chat.c:64): ASCII word characters or a hyphen. -/
def mentionIdChar (c : Char) : Bool :=
  c.isAlpha || c.isDigit || c = '_' || c = '-'

/-- Locate the lazy `(.*?)&gt;` tail of MENTION_PATTERN: the characters up to
the first `&gt;`, failing on a newline (the dot does not match one) or on end
of input.  Returns the captured group and the remainder after `&gt;`. -/
def findClose : List Char → Option (List Char × List Char)
  | '&' :: 'g' :: 't' :: ';' :: rest => some ([], rest)
  | c :: rest =>
    if c = '\n' then none
    else (findClose rest).map (fun q => (c :: q.1, q.2))
  | [] => none

/-- Try MENTION_PATTERN `&lt;@([\w\-]+)\|(.*?)&gt;` at the head of the input.
On a match, returns (group 1, group 2, remainder after the match). -/
def matchMention (l : List Char) : Option (List Char × List Char × List Char) :=
  match l with
  | '&' :: 'l' :: 't' :: ';' :: '@' :: rest =>
    (match rest.takeWhile mentionIdChar, rest.dropWhile mentionIdChar with
     | [], _ => none
     | g1, '|' :: rest2 => (findClose rest2).map (fun q => (g1, q.1, q.2))
     | _, _ => none)
  | _ => none

/-- Fuel-indexed scan of `g_regex_replace` with MENTION_PATTERN and
MENTION_REPLACEMENT `<b>\2</b>` (src/chat.c:64): at each position try the
pattern; on a match emit the replacement and continue after the matched
region, else copy one character.  Every step consumes at least one character,
so fuel equal to the input length never runs out. -/
def mentionReplaceFuel : Nat → List Char → List Char
  | _, [] => []
  | 0, l => l
  | fuel + 1, c :: rest =>
    match matchMention (c :: rest) with
    | some q => "<b>".data ++ q.2.1 ++ "</b>".data ++ mentionReplaceFuel fuel q.2.2
    | none => c :: mentionReplaceFuel fuel rest

/-- The `g_regex_replace` call of `parse_inbound_mentions`: rewrite every
mention token `&lt;@id|display&gt;` to `<b>display</b>`. -/
def mentionReplace (l : List Char) : List Char :=
  mentionReplaceFuel l.length l

/-- Embedding of `g_markup_escape_text` on one character. -/
def escapeChar (c : Char) : List Char :=
  if c = '&' then "&amp;".data
  else if c = '<' then "&lt;".data
  else if c = '>' then "&gt;".data
  else if c = '\'' then "&apos;".data
  else if c = '"' then "&quot;".data
  else [c]

/-- Embedding of `g_markup_escape_text`, as applied to incoming message
content before mention parsing (src/chat.c:134). -/
def g_markup_escape_text (s : List Char) : List Char :=
  (s.map escapeChar).flatten

/-- Embedding of `parse_inbound_mentions` (src/chat.c:71): the returned flag
is a plain `strstr` disjunction — the local profile id, or the literal
`&lt;@all|`, or `&lt;@present|`, anywhere in the (escaped) message — and the
parsed text has every mention token rewritten to `<b>display</b>`. -/
def parse_inbound_mentions (profileId : List Char) (message : List Char) :
    Bool × List Char :=
  (containsSub message profileId ||
     containsSub message "&lt;@all|".data ||
     containsSub message "&lt;@present|".data,
   mentionReplace message)

/-- Number of times `id` occurs in a list of delivered ids. -/
def deliveredCount (id : String) (l : List String) : Nat :=
  (l.filter (fun x => decide (x = id))).length

/-- Scenario for the backfill/live dedup: a live event with record `r` arrives
through `chat_msg_jugg_cb` while the backfill buffer exists, and afterwards
the backfill completes and the buffer is drained.  Returns the immediate
delivery of the live event (expected `none`) and the ids delivered by the
drain. -/
def liveThenDrain (profileId : String) (chat : ChatSt) (r : MsgRecord) :
    Option MsgDir × List String :=
  let j := chat_msg_jugg_cb profileId chat (some r)
  let d := chime_complete_messages profileId j.1
  (j.2.2, d.2)

/-! ## Shared lemmas -/

theorem mem_setAdd_self (id : String) (s : List String) : id ∈ setAdd id s := by
  unfold setAdd
  split
  · assumption
  · exact List.mem_cons_self id s

theorem sentDeliveryCount_le_one (o : SentRes) : sentDeliveryCount o ≤ 1 := by
  rcases o with _ | _ | (_ | d) <;> simp [sentDeliveryCount]

theorem echoDeliveryCount_le_one (d : Option MsgDir) : echoDeliveryCount d ≤ 1 := by
  rcases d with _ | d <;> simp [echoDeliveryCount]

theorem not_mem_chat_deliver_msg (profileId : String) (sent : List String)
    (r : MsgRecord) (id : String) (h : id ∉ sent) :
    id ∉ (chat_deliver_msg profileId sent r).1 := by
  unfold chat_deliver_msg
  rcases r.messageId with _ | mid
  · simpa using h
  · simp only []
    split
    · intro hmem
      exact h (List.mem_of_mem_erase hmem)
    · simpa using h

/-! ## Claim theorems -/

/-- C1: a live-channel event whose MessageId was recorded in the sent-message
marker set is suppressed by `chat_deliver_msg` (the id is removed from the set
and nothing is delivered); an event whose MessageId is not in the set is
delivered normally; and a locally sent message followed by its live-channel
echo is delivered to the session at most once. -/
theorem claim_C1 (profileId : String) (sent : List String) (r : MsgRecord) (id : String) :
    (r.messageId = some id → id ∈ sent →
       chat_deliver_msg profileId sent r = (sent.erase id, none)) ∧
    (r.messageId = some id → id ∉ sent →
       r.content.isSome = true → r.sender.isSome = true →
       (chat_deliver_msg profileId sent r).1 = sent ∧
       (chat_deliver_msg profileId sent r).2.isSome = true) ∧
    (∀ nowSec uninitUsec lastSeen, r.messageId = some id →
       sendThenEcho profileId nowSec uninitUsec lastSeen r sent ≤ 1) := by
  refine ⟨?_, ?_, ?_⟩
  · intro hid hmem
    simp [chat_deliver_msg, hid, hmem]
  · intro hid hmem hc hs
    rcases hc' : r.content with _ | c
    · rw [hc'] at hc; simp at hc
    rcases hs' : r.sender with _ | s
    · rw [hs'] at hs; simp at hs
    simp [chat_deliver_msg, hid, hmem, parse_incoming_msg, hc', hs']
  · intro nowSec uninitUsec lastSeen hid
    have hkey :
        sentDeliveryCount
            (sent_msg_cb profileId nowSec uninitUsec lastSeen (some r) sent).2 = 0 ∨
          id ∈ (sent_msg_cb profileId nowSec uninitUsec lastSeen (some r) sent).1 := by
      rcases lastSeen with _ | seen
      · right
        simp only [sent_msg_cb, sentDeliver, hid]
        exact mem_setAdd_self id sent
      · simp only [sent_msg_cb]
        split
        · left; rfl
        · right
          simp only [sentDeliver, hid]
          exact mem_setAdd_self id sent
    simp only [sendThenEcho]
    rcases hkey with h0 | hmem
    · rw [h0]
      simpa using echoDeliveryCount_le_one _
    · have hecho :
          chat_deliver_msg profileId
              (sent_msg_cb profileId nowSec uninitUsec lastSeen (some r) sent).1 r
            = ((sent_msg_cb profileId nowSec uninitUsec lastSeen (some r) sent).1.erase id,
               none) := by
        simp [chat_deliver_msg, hid, hmem]
      rw [hecho]
      simpa [echoDeliveryCount] using sentDeliveryCount_le_one _

theorem claim_C1_witness :
    chat_deliver_msg "p" ["m1"] ⟨some "m1", some "hi", some "s", none⟩
        = (([] : List String), none) ∧
    sendThenEcho "p" 5 0 none ⟨some "m2", some "hi", some "p", none⟩ [] ≤ 1 := by
  constructor
  · have h := (claim_C1 "p" ["m1"] ⟨some "m1", some "hi", some "s", none⟩ "m1").1
      rfl (by decide)
    simpa using h
  · exact (claim_C1 "p" [] ⟨some "m2", some "hi", some "p", none⟩ "m2").2.2 5 0 none rfl

/-- C8: when a send completes successfully, a last-seen timestamp at or after
the server-assigned CreatedOn (seconds first, microseconds on a tie)
suppresses delivery entirely and leaves the marker set untouched; otherwise
the message id is recorded in the sent-message marker set and the record is
delivered immediately — as a sent message, since its sender is the local
profile.  With no recorded last-seen timestamp the record is likewise
recorded and delivered. -/
theorem claim_C8 (profileId : String) (nowSec uninitUsec : Int) (seen tv : TimeVal)
    (m : MsgRecord) (sent : List String) (ts : String) (id : String)
    (hco : m.createdOn = some (ts, tv)) (hid : m.messageId = some id) :
    ((seen.sec > tv.sec ∨ (seen.sec = tv.sec ∧ seen.usec ≥ tv.usec)) →
       sent_msg_cb profileId nowSec uninitUsec (some seen) (some m) sent
         = (sent, SentRes.seenSuppressed)) ∧
    (¬(seen.sec > tv.sec ∨ (seen.sec = tv.sec ∧ seen.usec ≥ tv.usec)) →
       sent_msg_cb profileId nowSec uninitUsec (some seen) (some m) sent
         = (setAdd id sent, SentRes.passedOn (parse_incoming_msg profileId m)) ∧
       id ∈ (sent_msg_cb profileId nowSec uninitUsec (some seen) (some m) sent).1) ∧
    (sent_msg_cb profileId nowSec uninitUsec none (some m) sent
       = (setAdd id sent, SentRes.passedOn (parse_incoming_msg profileId m))) ∧
    (m.sender = some profileId → m.content.isSome = true →
       parse_incoming_msg profileId m = some MsgDir.send) := by
  refine ⟨?_, ?_, ?_, ?_⟩
  · intro hle
    simp [sent_msg_cb, hco, hle]
  · intro hgt
    constructor
    · simp [sent_msg_cb, hco, hgt, sentDeliver, hid]
    · simp only [sent_msg_cb, hco, hgt, if_neg, sentDeliver, hid]
      exact mem_setAdd_self id sent
  · simp [sent_msg_cb, hco, sentDeliver, hid]
  · intro hs hc
    rcases hc' : m.content with _ | c
    · rw [hc'] at hc; simp at hc
    simp [parse_incoming_msg, hc', hs]

theorem claim_C8_witness :
    sent_msg_cb "p" 99 7 (some ⟨10, 0⟩)
        (some ⟨some "m", some "hi", some "p", some ("t", ⟨5, 0⟩)⟩) ["x"]
      = (["x"], SentRes.seenSuppressed) ∧
    sent_msg_cb "p" 99 7 (some ⟨1, 0⟩)
        (some ⟨some "m", some "hi", some "p", some ("t", ⟨5, 0⟩)⟩) []
      = (setAdd "m" [],
         SentRes.passedOn
           (parse_incoming_msg "p" ⟨some "m", some "hi", some "p", some ("t", ⟨5, 0⟩)⟩)) := by
  constructor
  · exact (claim_C8 "p" 99 7 ⟨10, 0⟩ ⟨5, 0⟩
      ⟨some "m", some "hi", some "p", some ("t", ⟨5, 0⟩)⟩ ["x"] "t" "m" rfl rfl).1
      (Or.inl (by norm_num))
  · exact ((claim_C8 "p" 99 7 ⟨1, 0⟩ ⟨5, 0⟩
      ⟨some "m", some "hi", some "p", some ("t", ⟨5, 0⟩)⟩ [] "t" "m" rfl rfl).2.1
      (by norm_num)).1

/-- C3: a refresh request (`fetch_conversations` without a continuation token)
arriving while the state is FETCHING turns it STALE and issues no request; a
further request while STALE is absorbed; and a page callback landing while the
state is STALE — in particular the final page of the coalesced pass — nets out
to IDLE plus an immediately re-triggered fresh pass (state FETCHING, a new
request issued, generation bumped) with the expiry sweep skipped. -/
theorem claim_C3 (st : ConnSt) (pg : PageResp) :
    (st.sync = SyncState.fetching →
       fetch_conversations none st = ({ st with sync := SyncState.stale }, false)) ∧
    (st.sync = SyncState.stale → fetch_conversations none st = (st, false)) ∧
    (st.sync = SyncState.stale →
       conversations_cb st pg =
         ⟨{ st with
            sync := SyncState.fetching,
            conversations := { st.conversations with
                               generation := st.conversations.generation + 1 } },
          false, true, false⟩) := by
  refine ⟨?_, ?_, ?_⟩
  · intro h
    simp [fetch_conversations, h]
  · intro h
    simp [fetch_conversations, h]
  · intro h
    simp [conversations_cb, h, fetch_conversations]

theorem claim_C3_witness :
    fetch_conversations none ⟨SyncState.fetching, ⟨2, []⟩, true⟩
      = (⟨SyncState.stale, ⟨2, []⟩, true⟩, false) ∧
    fetch_conversations none ⟨SyncState.stale, ⟨2, []⟩, true⟩
      = (⟨SyncState.stale, ⟨2, []⟩, true⟩, false) ∧
    conversations_cb ⟨SyncState.stale, ⟨2, []⟩, true⟩ ⟨true, some ⟨some [], none⟩⟩
      = ⟨⟨SyncState.fetching, ⟨3, []⟩, true⟩, false, true, false⟩ := by
  refine ⟨?_, ?_, ?_⟩
  · exact (claim_C3 ⟨SyncState.fetching, ⟨2, []⟩, true⟩ ⟨true, none⟩).1 rfl
  · exact (claim_C3 ⟨SyncState.stale, ⟨2, []⟩, true⟩ ⟨true, none⟩).2.1 rfl
  · exact (claim_C3 ⟨SyncState.stale, ⟨2, []⟩, true⟩ ⟨true, some ⟨some [], none⟩⟩).2.2 rfl

/-- C4: the expiry sweep runs exactly on receipt of a successful final page
(body present, `Conversations` node present, no continuation token) while the
pass is still FETCHING — never on a paginated page, a failed page, or a
coalesced (STALE) pass; the sweep keeps an entity iff its generation is not
strictly below the collection generation; and a pass starting from IDLE
increments the collection generation exactly once. -/
theorem claim_C4 (st : ConnSt) (pg : PageResp) (coll : ObjCollection)
    (id : String) (c : Conversation) :
    ((conversations_cb st pg).sweepRan = true ↔
       (st.sync = SyncState.fetching ∧ pg.statusOk = true ∧
        ∃ body recs, pg.body = some body ∧ body.conversations = some recs ∧
          body.nextToken = none)) ∧
    ((id, c) ∈ (chime_object_collection_expire_outdated coll).byId ↔
       ((id, c) ∈ coll.byId ∧ ¬ c.generation < coll.generation)) ∧
    (st.sync = SyncState.idle →
       fetch_conversations none st
         = ({ st with
              sync := SyncState.fetching,
              conversations := { st.conversations with
                                 generation := st.conversations.generation + 1 } },
            true)) := by
  refine ⟨?_, ?_, ?_⟩
  · rcases pg with ⟨ok, body⟩
    cases hsync : st.sync
    case idle => simp [conversations_cb, hsync, fetch_conversations]
    case stale => simp [conversations_cb, hsync, fetch_conversations]
    case fetching =>
      cases ok
      · simp [conversations_cb, hsync]
      · rcases body with _ | b
        · simp [conversations_cb, hsync]
        · rcases b with ⟨convs, tok⟩
          rcases convs with _ | recs
          · simp [conversations_cb, hsync]
          · rcases tok with _ | t <;> simp [conversations_cb, hsync]
  · simp [chime_object_collection_expire_outdated, List.mem_filter, Nat.not_lt]
  · intro h
    simp [fetch_conversations, h]

theorem claim_C4_witness :
    (conversations_cb ⟨SyncState.fetching, ⟨1, []⟩, true⟩
        ⟨true, some ⟨some [], none⟩⟩).sweepRan = true ∧
    ("a", (⟨"n", "ch", false, true, none, "c", "u", 0, 0, 1⟩ : Conversation)) ∉
        (chime_object_collection_expire_outdated
          ⟨2, [("a", ⟨"n", "ch", false, true, none, "c", "u", 0, 0, 1⟩)]⟩).byId ∧
    fetch_conversations none ⟨SyncState.idle, ⟨3, []⟩, false⟩
      = (⟨SyncState.fetching, ⟨4, []⟩, false⟩, true) := by
  refine ⟨?_, ?_, ?_⟩
  · exact (claim_C4 ⟨SyncState.fetching, ⟨1, []⟩, true⟩ ⟨true, some ⟨some [], none⟩⟩
      ⟨0, []⟩ "x" ⟨"n", "ch", false, true, none, "c", "u", 0, 0, 1⟩).1.mpr
      ⟨rfl, rfl, ⟨⟨some [], none⟩, [], rfl, rfl, rfl⟩⟩
  · intro hmem
    have h := ((claim_C4 ⟨SyncState.idle, ⟨0, []⟩, false⟩ ⟨false, none⟩
      ⟨2, [("a", ⟨"n", "ch", false, true, none, "c", "u", 0, 0, 1⟩)]⟩
      "a" ⟨"n", "ch", false, true, none, "c", "u", 0, 0, 1⟩).2.1).mp hmem
    exact h.2 (by decide)
  · exact (claim_C4 ⟨SyncState.idle, ⟨3, []⟩, false⟩ ⟨true, none⟩ ⟨0, []⟩ "x"
      ⟨"n", "ch", false, true, none, "c", "u", 0, 0, 1⟩).2.2 rfl

/-- C5 counterexample: at the concrete state (sync FETCHING, generation 1, one
cached entity) receiving a failed page (unsuccessful status, no body), the
failure is reported but the sync state does not return to IDLE — it stays
FETCHING — contradicting the claim's "the sync state returns to IDLE". -/
theorem claim_C5_cex :
    (conversations_cb
        ⟨SyncState.fetching,
         ⟨1, [("a", ⟨"n", "ch", false, true, none, "c", "u", 0, 0, 1⟩)]⟩, false⟩
        ⟨false, none⟩).failed = true ∧
    ¬ (conversations_cb
        ⟨SyncState.fetching,
         ⟨1, [("a", ⟨"n", "ch", false, true, none, "c", "u", 0, 0, 1⟩)]⟩, false⟩
        ⟨false, none⟩).st.sync = SyncState.idle := by
  decide

/-- C5 (amended): if any page fetch of the conversations refresh fails
(unsuccessful HTTP status or missing response body) while the pass is
FETCHING, the failure is reported via `chime_connection_fail`, the expiry
sweep is not run, no further request is issued, and the connection state —
including every cached entity — is left untouched (so the sync state remains
FETCHING rather than returning to IDLE; the connection as a whole is being
failed). -/
theorem claim_C5 (st : ConnSt) (pg : PageResp)
    (hsync : st.sync = SyncState.fetching)
    (hfail : pg.statusOk = false ∨ pg.body = none) :
    conversations_cb st pg = ⟨st, false, false, true⟩ := by
  rcases pg with ⟨ok, body⟩
  rcases hfail with h | h
  · simp only at h
    subst h
    simp [conversations_cb, hsync]
  · simp only at h
    subst h
    cases ok <;> simp [conversations_cb, hsync]

theorem claim_C5_witness :
    conversations_cb ⟨SyncState.fetching, ⟨1, []⟩, false⟩ ⟨false, some ⟨some [], none⟩⟩
      = ⟨⟨SyncState.fetching, ⟨1, []⟩, false⟩, false, false, true⟩ :=
  claim_C5 ⟨SyncState.fetching, ⟨1, []⟩, false⟩ ⟨false, some ⟨some [], none⟩⟩ rfl
    (Or.inl rfl)

/-- C6: upserting a record onto an existing conversation overwrites each
mutable field only when the parsed value differs from the stored one, emits a
field-change notification exactly for the fields whose stored value actually
changed, and any changed field holds exactly the parsed value afterwards. -/
theorem claim_C6 (c : Conversation) (r : ConvRecord) :
    (((updateConversation c r).2.name = true ↔
        (updateConversation c r).1.name ≠ c.name) ∧
     ((updateConversation c r).1.name ≠ c.name →
        (updateConversation c r).1.name = r.name)) ∧
    (((updateConversation c r).2.channel = true ↔
        (updateConversation c r).1.channel ≠ c.channel) ∧
     ((updateConversation c r).1.channel ≠ c.channel →
        (updateConversation c r).1.channel = r.channel)) ∧
    (((updateConversation c r).2.favourite = true ↔
        (updateConversation c r).1.favourite ≠ c.favourite) ∧
     ((updateConversation c r).1.favourite ≠ c.favourite →
        (updateConversation c r).1.favourite = r.favourite)) ∧
    (((updateConversation c r).2.visibility = true ↔
        (updateConversation c r).1.visibility ≠ c.visibility) ∧
     ((updateConversation c r).1.visibility ≠ c.visibility →
        (updateConversation c r).1.visibility = r.visibility)) ∧
    (((updateConversation c r).2.lastSent = true ↔
        (updateConversation c r).1.lastSent ≠ c.lastSent) ∧
     ((updateConversation c r).1.lastSent ≠ c.lastSent →
        (updateConversation c r).1.lastSent = r.lastSent)) ∧
    (((updateConversation c r).2.createdOn = true ↔
        (updateConversation c r).1.createdOn ≠ c.createdOn) ∧
     ((updateConversation c r).1.createdOn ≠ c.createdOn →
        (updateConversation c r).1.createdOn = r.createdOn)) ∧
    (((updateConversation c r).2.updatedOn = true ↔
        (updateConversation c r).1.updatedOn ≠ c.updatedOn) ∧
     ((updateConversation c r).1.updatedOn ≠ c.updatedOn →
        (updateConversation c r).1.updatedOn = r.updatedOn)) ∧
    (((updateConversation c r).2.desktop = true ↔
        (updateConversation c r).1.desktop ≠ c.desktop) ∧
     ((updateConversation c r).1.desktop ≠ c.desktop →
        (updateConversation c r).1.desktop = r.desktop)) ∧
    (((updateConversation c r).2.mobile = true ↔
        (updateConversation c r).1.mobile ≠ c.mobile) ∧
     ((updateConversation c r).1.mobile ≠ c.mobile →
        (updateConversation c r).1.mobile = r.mobile)) := by
  rcases hls : r.lastSent with _ | s <;>
    refine ⟨⟨?_, ?_⟩, ⟨?_, ?_⟩, ⟨?_, ?_⟩, ⟨?_, ?_⟩, ⟨?_, ?_⟩, ⟨?_, ?_⟩, ⟨?_, ?_⟩,
      ⟨?_, ?_⟩, ⟨?_, ?_⟩⟩ <;>
    simp [updateConversation, hls] <;>
    intro h <;>
    simp_all

theorem claim_C6_witness :
    (updateConversation
        ⟨"a", "ch", false, true, none, "c", "u", 0, 0, 5⟩
        ⟨"i", "b", "ch", false, true, none, "c", "u", 0, 0⟩).2.name = true ∧
    (updateConversation
        ⟨"a", "ch", false, true, none, "c", "u", 0, 0, 5⟩
        ⟨"i", "b", "ch", false, true, none, "c", "u", 0, 0⟩).1.name = "b" := by
  have h := claim_C6 ⟨"a", "ch", false, true, none, "c", "u", 0, 0, 5⟩
    ⟨"i", "b", "ch", false, true, none, "c", "u", 0, 0⟩
  exact ⟨h.1.1.mpr (by decide), h.1.2 (by decide)⟩

/-- C7: `chime_connection_parse_conversation` returns the error marker exactly
when some required field of the record is missing or malformed (the id, name,
channel, favourite, visibility, created-on or updated-on field, or the nested
notification-preference pair), and in that case nothing is mutated: the
collection is returned untouched, no new-entity event fires and no field
notification is emitted. -/
theorem claim_C7 (coll : ObjCollection) (node : ConvNode) :
    ((chime_connection_parse_conversation coll node).ok = none ↔
       parse_conversation_node node = none) ∧
    (parse_conversation_node node = none ↔
       (node.conversationId = none ∨ node.name = none ∨ node.channel = none ∨
        node.favorite = none ∨ node.visibility = none ∨
        node.createdOn = none ∨ node.updatedOn = none ∨
        (node.preferences.bind PrefsOuter.notificationPreferences).bind
            NotifNode.desktop = none ∨
        (node.preferences.bind PrefsOuter.notificationPreferences).bind
            NotifNode.mobile = none)) ∧
    ((chime_connection_parse_conversation coll node).ok = none →
       chime_connection_parse_conversation coll node = ⟨coll, none, false, noNotes⟩) := by
  refine ⟨?_, ?_, ?_⟩
  · cases hp : parse_conversation_node node with
    | none => simp [chime_connection_parse_conversation, hp]
    | some r =>
      cases hl : assocLookup r.id coll.byId <;>
        simp [chime_connection_parse_conversation, hp, hl]
  · rcases node with ⟨cid, nm, ch, fav, vis, cr, up, ls, pr⟩
    rcases cid with _ | cid <;> rcases nm with _ | nm <;> rcases ch with _ | ch <;>
      rcases fav with _ | fav <;> rcases vis with _ | vis <;> rcases cr with _ | cr <;>
      rcases up with _ | up <;>
      simp [parse_conversation_node, parse_boolean] <;>
      rcases pr with _ | ⟨_ | ⟨d, m⟩⟩ <;>
      simp [parse_conversation_node, parse_boolean] <;>
      rcases d with _ | d <;> rcases m with _ | m <;>
      simp [parse_conversation_node, parse_boolean]
  · intro hok
    cases hp : parse_conversation_node node with
    | none => simp [chime_connection_parse_conversation, hp]
    | some r =>
      rw [chime_connection_parse_conversation, hp] at hok
      cases hl : assocLookup r.id coll.byId <;> simp [hl] at hok

theorem claim_C7_witness :
    chime_connection_parse_conversation ⟨7, []⟩
        ⟨none, none, none, none, none, none, none, none, none⟩
      = ⟨⟨7, []⟩, none, false, noNotes⟩ :=
  (claim_C7 ⟨7, []⟩ ⟨none, none, none, none, none, none, none, none, none⟩).2.2
    (by decide)

theorem leadMatch_iff (n : List Char) :
    ∀ h : List Char, leadMatch n h = true ↔ ∃ t, n ++ t = h := by
  induction n with
  | nil => intro h; simp [leadMatch]
  | cons a as ih =>
    intro h
    cases h with
    | nil => simp [leadMatch]
    | cons b bs =>
      simp only [leadMatch, Bool.and_eq_true, decide_eq_true_eq, ih bs,
        List.cons_append, List.cons.injEq]
      constructor
      · rintro ⟨rfl, t, rfl⟩
        exact ⟨t, rfl, rfl⟩
      · rintro ⟨t, rfl, rfl⟩
        exact ⟨rfl, t, rfl⟩

theorem containsSub_iff (h n : List Char) :
    containsSub h n = true ↔ ∃ pre post, pre ++ n ++ post = h := by
  induction h with
  | nil =>
    simp only [containsSub, leadMatch_iff]
    constructor
    · rintro ⟨t, ht⟩
      exact ⟨[], t, by simpa using ht⟩
    · rintro ⟨pre, post, hp⟩
      rcases List.append_eq_nil.mp hp with ⟨h1, h2⟩
      rcases List.append_eq_nil.mp h1 with ⟨rfl, rfl⟩
      exact ⟨[], rfl⟩
  | cons c t ih =>
    simp only [containsSub, Bool.or_eq_true, leadMatch_iff, ih]
    constructor
    · rintro (⟨s, hs⟩ | ⟨pre, post, hp⟩)
      · exact ⟨[], s, by simpa using hs⟩
      · exact ⟨c :: pre, post, by simp [hp]⟩
    · rintro ⟨pre, post, hp⟩
      cases pre with
      | nil => exact Or.inl ⟨post, by simpa using hp⟩
      | cons x xs =>
        rw [List.cons_append, List.cons_append] at hp
        injection hp with h1 h2
        exact Or.inr ⟨xs, post, by simpa using h2⟩

/-- C9: on input "hello @all, cc Jane Doe" with chat member "Jane Doe" (id
"u1"), the outbound mention expansion produces the wire substrings
`<@all|All Members>` and `<@u1|Jane Doe>`; the inbound transform on the
HTML-escaped wire text yields text containing the display names
"All Members" and "Jane Doe" and flags the message as a mention (via the
`&lt;@all|` literal). -/
theorem claim_C9 :
    containsSub
        (parse_outbound_mentions [("u1", "Jane Doe")] ("hello @all, cc Jane Doe".data))
        ("<@all|All Members>".data) = true ∧
    containsSub
        (parse_outbound_mentions [("u1", "Jane Doe")] ("hello @all, cc Jane Doe".data))
        ("<@u1|Jane Doe>".data) = true ∧
    (parse_inbound_mentions ("prof-local".data)
        (g_markup_escape_text
          (parse_outbound_mentions [("u1", "Jane Doe")]
            ("hello @all, cc Jane Doe".data)))).1 = true ∧
    containsSub
        (parse_inbound_mentions ("prof-local".data)
          (g_markup_escape_text
            (parse_outbound_mentions [("u1", "Jane Doe")]
              ("hello @all, cc Jane Doe".data)))).2
        ("All Members".data) = true ∧
    containsSub
        (parse_inbound_mentions ("prof-local".data)
          (g_markup_escape_text
            (parse_outbound_mentions [("u1", "Jane Doe")]
              ("hello @all, cc Jane Doe".data)))).2
        ("Jane Doe".data) = true := by
  decide

/-- C10: the "local user was mentioned" flag of `parse_inbound_mentions` is a
plain substring test — true iff the escaped text contains the profile id, the
literal `&lt;@all|`, or the literal `&lt;@present|` anywhere — so a message
whose ordinary text merely contains the profile id, with no well-formed
mention token (the parsed text is returned unchanged), is still flagged. -/
theorem claim_C10 (profileId msg : List Char) :
    ((parse_inbound_mentions profileId msg).1 = true ↔
       ((∃ a b, a ++ profileId ++ b = msg) ∨
        (∃ a b, a ++ "&lt;@all|".data ++ b = msg) ∨
        (∃ a b, a ++ "&lt;@present|".data ++ b = msg))) ∧
    parse_inbound_mentions ("u1".data) ("greetings u1 bye".data)
      = (true, "greetings u1 bye".data) := by
  constructor
  · simp only [parse_inbound_mentions, Bool.or_eq_true, containsSub_iff,
      List.append_assoc, or_assoc]
  · decide

theorem claim_C10_witness :
    (parse_inbound_mentions ("pid7".data) ("xx pid7 yy".data)).1 = true :=
  (claim_C10 ("pid7".data) ("xx pid7 yy".data)).1.mpr
    (Or.inl ⟨"xx ".data, " yy".data, by decide⟩)

theorem mem_assocInsert {β : Type} (p : String × β) (id : String) (v : β)
    (l : List (String × β)) (h : p ∈ assocInsert id v l) :
    p = (id, v) ∨ (p ∈ l ∧ p.1 ≠ id) := by
  simp only [assocInsert, List.mem_cons, List.mem_filter, decide_eq_true_eq] at h
  tauto

theorem self_mem_assocInsert {β : Type} (id : String) (v : β)
    (l : List (String × β)) : (id, v) ∈ assocInsert id v l := by
  simp [assocInsert]

theorem assocLookup_assocInsert {β : Type} (id : String) (v : β)
    (l : List (String × β)) : assocLookup id (assocInsert id v l) = some v := by
  simp [assocInsert, assocLookup]

theorem assocKeys_nodup_assocInsert {β : Type} (id : String) (v : β)
    (l : List (String × β)) (h : (assocKeys l).Nodup) :
    (assocKeys (assocInsert id v l)).Nodup := by
  simp only [assocInsert, assocKeys, List.map_cons]
  rw [List.nodup_cons]
  constructor
  · intro hmem
    obtain ⟨q, hq, hfst⟩ := List.mem_map.mp hmem
    have hne := (List.mem_filter.mp hq).2
    simp only [decide_eq_true_eq] at hne
    exact hne hfst
  · exact h.sublist ((List.filter_sublist l).map Prod.fst)

theorem drainFold_mem_keys (pid id : String) :
    ∀ (l : List (String × MsgRecord)) (sent : List String),
      id ∈ (drainFold pid l sent).2 → id ∈ assocKeys l := by
  intro l
  induction l with
  | nil =>
    intro sent h
    simp [drainFold] at h
  | cons p rest ih =>
    intro sent h
    simp only [drainFold] at h
    rcases hd : (chat_deliver_msg pid sent p.2).2 with _ | dd
    · rw [hd] at h
      simp only [List.nil_append] at h
      have hrec := ih _ h
      simp only [assocKeys, List.map_cons, List.mem_cons]
      simp only [assocKeys] at hrec
      exact Or.inr hrec
    · rw [hd] at h
      simp only [List.singleton_append] at h
      rcases List.mem_cons.mp h with h1 | h2
      · simp [assocKeys, h1]
      · have hrec := ih _ h2
        simp only [assocKeys, List.map_cons, List.mem_cons]
        simp only [assocKeys] at hrec
        exact Or.inr hrec

theorem deliveredCount_append (id : String) (a b : List String) :
    deliveredCount id (a ++ b) = deliveredCount id a + deliveredCount id b := by
  simp [deliveredCount, List.filter_append]

theorem deliveredCount_eq_zero (pid id : String) (l : List (String × MsgRecord))
    (sent : List String) (h : id ∉ assocKeys l) :
    deliveredCount id (drainFold pid l sent).2 = 0 := by
  unfold deliveredCount
  rw [List.length_eq_zero, List.filter_eq_nil_iff]
  intro x hx
  simp only [decide_eq_true_eq]
  intro heq
  subst heq
  exact h (drainFold_mem_keys pid x l sent hx)

theorem drainFold_count_one (pid id : String) :
    ∀ (l : List (String × MsgRecord)) (sent : List String),
      (∀ p ∈ l, p.2.messageId = some p.1) →
      (assocKeys l).Nodup →
      id ∈ assocKeys l →
      id ∉ sent →
      (∀ p ∈ l, p.1 = id → (parse_incoming_msg pid p.2).isSome = true) →
      deliveredCount id (drainFold pid l sent).2 = 1 := by
  intro l
  induction l with
  | nil =>
    intro sent _ _ hmem _
    simp [assocKeys] at hmem
  | cons p rest ih =>
    intro sent hids hnd hmem hsent hwf
    have hndk : (p.1 :: assocKeys rest).Nodup := by
      simpa only [assocKeys, List.map_cons] using hnd
    have hnd2 := List.nodup_cons.mp hndk
    by_cases hp : p.1 = id
    · have hidp : p.2.messageId = some id := by
        rw [hids p (List.mem_cons_self _ _), hp]
      have hwfp : (parse_incoming_msg pid p.2).isSome = true :=
        hwf p (List.mem_cons_self _ _) hp
      have hdmsg : chat_deliver_msg pid sent p.2 = (sent, parse_incoming_msg pid p.2) := by
        simp [chat_deliver_msg, hidp, hsent]
      rcases hpi : parse_incoming_msg pid p.2 with _ | dd
      · rw [hpi] at hwfp
        simp at hwfp
      · simp only [drainFold, hdmsg, hpi]
        rw [List.singleton_append, show p.1 :: (drainFold pid rest sent).2
              = [p.1] ++ (drainFold pid rest sent).2 from rfl,
            deliveredCount_append]
        have h0 : deliveredCount id (drainFold pid rest sent).2 = 0 := by
          apply deliveredCount_eq_zero
          rw [hp] at hnd2
          exact hnd2.1
        have h1 : deliveredCount id [p.1] = 1 := by
          simp [deliveredCount, hp]
        rw [h0, h1]
    · have hsent2 : id ∉ (chat_deliver_msg pid sent p.2).1 :=
        not_mem_chat_deliver_msg pid sent p.2 id hsent
      have hmem2 : id ∈ assocKeys rest := by
        have hm : id ∈ p.1 :: assocKeys rest := by simpa [assocKeys] using hmem
        rcases List.mem_cons.mp hm with h1 | h1
        · exact absurd h1.symm hp
        · exact h1
      have hrec := ih (chat_deliver_msg pid sent p.2).1
        (fun q hq => hids q (List.mem_cons_of_mem _ hq)) hnd2.2 hmem2 hsent2
        (fun q hq hqe => hwf q (List.mem_cons_of_mem _ hq) hqe)
      rcases hd : (chat_deliver_msg pid sent p.2).2 with _ | dd
      · simp only [drainFold, hd, List.nil_append]
        exact hrec
      · simp only [drainFold, hd, List.singleton_append]
        rw [show p.1 :: (drainFold pid rest (chat_deliver_msg pid sent p.2).1).2
              = [p.1] ++ (drainFold pid rest (chat_deliver_msg pid sent p.2).1).2 from rfl,
            deliveredCount_append]
        have h1 : deliveredCount id [p.1] = 0 := by
          simp [deliveredCount, hp]
        rw [h1, hrec]

/-- C2: while the backfill buffer exists, a live push event carrying a
MessageId is inserted into the id-keyed buffer — overwriting any earlier
record with the same id — and is not delivered immediately; when the backfill
then completes and the buffer is drained in timestamp order, a message id
that arrived through both the backfill path (already buffered) and the live
path is delivered to the session exactly once. -/
theorem claim_C2 (profileId : String) (chat : ChatSt) (buf : List (String × MsgRecord))
    (r : MsgRecord) (id : String)
    (hbuf : chat.msgs.messages = some buf)
    (hid : r.messageId = some id) :
    (chat_msg_jugg_cb profileId chat (some r)
       = ({ chat with msgs := { chat.msgs with messages := some (assocInsert id r buf) } },
          true, none)) ∧
    (assocLookup id (assocInsert id r buf) = some r) ∧
    ((∀ p ∈ buf, p.2.messageId = some p.1) →
     (assocKeys buf).Nodup →
     id ∉ chat.sentMsgs →
     (parse_incoming_msg profileId r).isSome = true →
     (∀ p ∈ buf, p.1 = id → (parse_incoming_msg profileId p.2).isSome = true) →
     (liveThenDrain profileId chat r).1 = none ∧
       deliveredCount id (liveThenDrain profileId chat r).2 = 1) := by
  have hjugg : chat_msg_jugg_cb profileId chat (some r)
      = ({ chat with msgs := { chat.msgs with messages := some (assocInsert id r buf) } },
         true, none) := by
    simp [chat_msg_jugg_cb, hid, hbuf]
  refine ⟨hjugg, assocLookup_assocInsert id r buf, ?_⟩
  intro hids hnd hsent hwfr hwfb
  have hperm : List.Perm (List.insertionSort bufLe (assocInsert id r buf))
      (assocInsert id r buf) := List.perm_insertionSort _ _
  have hids2 : ∀ p ∈ List.insertionSort bufLe (assocInsert id r buf),
      p.2.messageId = some p.1 := by
    intro p hp
    rcases mem_assocInsert p id r buf (hperm.mem_iff.mp hp) with h1 | h1
    · subst h1; simpa using hid
    · exact hids p h1.1
  have hnd2 : (assocKeys (List.insertionSort bufLe (assocInsert id r buf))).Nodup := by
    have hpk := hperm.map Prod.fst
    exact hpk.nodup_iff.mpr (assocKeys_nodup_assocInsert id r buf hnd)
  have hmem2 : id ∈ assocKeys (List.insertionSort bufLe (assocInsert id r buf)) := by
    have hm : id ∈ assocKeys (assocInsert id r buf) := by
      simpa [assocKeys] using
        List.mem_map_of_mem Prod.fst (self_mem_assocInsert id r buf)
    exact ((hperm.map Prod.fst).mem_iff).mpr hm
  have hwf2 : ∀ p ∈ List.insertionSort bufLe (assocInsert id r buf),
      p.1 = id → (parse_incoming_msg profileId p.2).isSome = true := by
    intro p hp hpe
    rcases mem_assocInsert p id r buf (hperm.mem_iff.mp hp) with h1 | h1
    · subst h1; simpa using hwfr
    · exact absurd hpe h1.2
  have hcount := drainFold_count_one profileId id
    (List.insertionSort bufLe (assocInsert id r buf)) chat.sentMsgs
    hids2 hnd2 hmem2 hsent hwf2
  constructor
  · simp [liveThenDrain, hjugg]
  · simp only [liveThenDrain, hjugg, chime_complete_messages]
    exact hcount

theorem claim_C2_witness :
    (liveThenDrain "p"
        ⟨⟨some [("m1", ⟨some "m1", some "c1", some "s1", some ("t1", ⟨1, 0⟩)⟩)], none⟩, []⟩
        ⟨some "m1", some "c2", some "s2", some ("t2", ⟨2, 0⟩)⟩).1 = none ∧
    deliveredCount "m1"
        (liveThenDrain "p"
          ⟨⟨some [("m1", ⟨some "m1", some "c1", some "s1", some ("t1", ⟨1, 0⟩)⟩)], none⟩, []⟩
          ⟨some "m1", some "c2", some "s2", some ("t2", ⟨2, 0⟩)⟩).2 = 1 :=
  (claim_C2 "p"
      ⟨⟨some [("m1", ⟨some "m1", some "c1", some "s1", some ("t1", ⟨1, 0⟩)⟩)], none⟩, []⟩
      [("m1", ⟨some "m1", some "c1", some "s1", some ("t1", ⟨1, 0⟩)⟩)]
      ⟨some "m1", some "c2", some "s2", some ("t2", ⟨2, 0⟩)⟩ "m1" rfl rfl).2.2
    (by decide) (by decide) (by decide) (by decide) (by decide)
